import Mathlib

/-!
Verification of the niri-bar compositor state bus (`src/niri/mod.rs`).

The development shallowly embeds the `NiriBus` state store: JSON values are
an inductive `Json` type (numbers keep their lexed token text, since the bus
never computes with float values, only stores and compares decoded records),
`serde_json::from_str` is modelled by a recursive-descent parser `parseJson`,
and each event branch of `NiriBus::handle_json` is translated into a pure
state-transformer returning the next state together with the number of
`notify_ui` signals the branch emits.
-/

set_option maxRecDepth 4000

namespace NiriBar

/-- JSON values as produced by `serde_json`.  A number keeps the raw lexed
token (e.g. "42", "-1.5"); the bus only ever asks `as_i64`/`as_f64` of it.
Objects are association lists with distinct keys (the parser collapses
duplicate keys, last occurrence winning, as `serde_json`'s map insert does). -/
inductive Json where
  | null : Json
  | bool (b : Bool) : Json
  | num (raw : String) : Json
  | str (s : String) : Json
  | arr (elems : List Json) : Json
  | obj (fields : List (String × Json)) : Json

/-- Model of Rust `f64` values flowing out of `as_f64().unwrap_or(0.0)`:
the raw numeric token (the bus stores them opaquely and never computes). -/
abbrev F := String

/-- The `f64` default `0.0` used by `unwrap_or(0.0)`. -/
def f64Zero : F := "0"

namespace Json

/-- `Value::as_object`. -/
def asObject : Json → Option (List (String × Json))
  | .obj fields => some fields
  | _ => none

/-- `Value::as_array`. -/
def asArray : Json → Option (List Json)
  | .arr elems => some elems
  | _ => none

/-- `Value::as_str`. -/
def asStr : Json → Option String
  | .str s => some s
  | _ => none

/-- `Value::as_bool`. -/
def asBool : Json → Option Bool
  | .bool b => some b
  | _ => none

end Json

/-- Value of a (non-empty) list of decimal digit characters. -/
def digitsVal : List Char → Option Nat
  | [] => none
  | cs => cs.foldl (fun acc c =>
      match acc with
      | some n => if c.isDigit then some (n * 10 + (c.toNat - '0'.toNat)) else none
      | none => none) (some 0)

/-- A JSON integer-literal token body (no sign): `0` or a nonzero digit
followed by digits. -/
def natTokenVal (cs : List Char) : Option Nat :=
  match cs with
  | [] => none
  | ['0'] => some 0
  | '0' :: _ :: _ => none
  | c :: _ => if c.isDigit then digitsVal cs else none

/-- `Value::as_i64` on a numeric token: succeeds exactly when the token was
lexed as an integer (no fraction or exponent part) and fits in `i64`. -/
def parseIntToken (s : String) : Option Int :=
  match s.toList with
  | '-' :: rest =>
    (natTokenVal rest).bind fun n =>
      if (n : Int) ≤ 2 ^ 63 then some (-(n : Int)) else none
  | l =>
    (natTokenVal l).bind fun n =>
      if (n : Int) < 2 ^ 63 then some (n : Int) else none

/-- `Value::as_u64` on a numeric token: integer token, non-negative, fits `u64`. -/
def parseU64Token (s : String) : Option Nat :=
  match s.toList with
  | '-' :: _ => none
  | l => (natTokenVal l).bind fun n => if n < 2 ^ 64 then some n else none

namespace Json

/-- `Value::as_i64`. -/
def asI64 : Json → Option Int
  | .num raw => parseIntToken raw
  | _ => none

/-- `Value::as_u64`. -/
def asU64 : Json → Option Nat
  | .num raw => parseU64Token raw
  | _ => none

/-- `Value::as_f64`, in the raw-token model: any number succeeds. -/
def asF64 : Json → Option F
  | .num raw => some raw
  | _ => none

end Json

/-- Lookup in a JSON object's field list (`serde_json::Map::get`). -/
def oGet (fields : List (String × Json)) (k : String) : Option Json :=
  match fields with
  | [] => none
  | (k', v) :: rest => if k' = k then some v else oGet rest k

/-- `Map::contains_key`. -/
def oContains (fields : List (String × Json)) (k : String) : Bool :=
  (oGet fields k).isSome

/-- `Value::get(k)` — `None` unless the value is an object holding `k`. -/
def jGet (j : Json) (k : String) : Option Json :=
  (j.asObject).bind fun fields => oGet fields k

/-! ### A JSON parser modelling `serde_json::from_str::<Value>`

Recursive descent with an explicit fuel argument (every recursive call
consumes at least one input character first, so the generous initial fuel
never runs out on real input).  Faithful to `serde_json` on: whitespace,
the five literal forms, leading-zero and sign rules for numbers, required
escaping of control characters, rejection of lone `\uXXXX` surrogates, and
rejection of trailing garbage.  (Surrogate *pairs*, which `serde_json`
combines into one scalar, are also rejected here — a deliberate small
narrowing that no claim exercises.) -/

/-- JSON insignificant whitespace. -/
def isJsonWs (c : Char) : Bool :=
  c = ' ' || c = '\t' || c = '\n' || c = '\r'

/-- Skip leading whitespace. -/
def skipWs : List Char → List Char
  | [] => []
  | c :: rest => if isJsonWs c then skipWs rest else c :: rest

/-- Hex digit value. -/
def hexVal (c : Char) : Option Nat :=
  if '0' ≤ c ∧ c ≤ '9' then some (c.toNat - '0'.toNat)
  else if 'a' ≤ c ∧ c ≤ 'f' then some (c.toNat - 'a'.toNat + 10)
  else if 'A' ≤ c ∧ c ≤ 'F' then some (c.toNat - 'A'.toNat + 10)
  else none

/-- Body of a string literal, after the opening quote.  Returns the decoded
contents and the input remaining after the closing quote. -/
def parseStringBody : List Char → String → Option (String × List Char)
  | [], _ => none
  | '"' :: rest, acc => some (acc, rest)
  | '\\' :: esc, acc =>
    match esc with
    | [] => none
    | 'u' :: h1 :: h2 :: h3 :: h4 :: rest =>
      match hexVal h1, hexVal h2, hexVal h3, hexVal h4 with
      | some a, some b, some c, some d =>
        let n := ((a * 16 + b) * 16 + c) * 16 + d
        if n < 0xd800 ∨ 0xe000 ≤ n then
          parseStringBody rest (acc.push (Char.ofNat n))
        else none
      | _, _, _, _ => none
    | c :: rest =>
      match c with
      | '"' => parseStringBody rest (acc.push '"')
      | '\\' => parseStringBody rest (acc.push '\\')
      | '/' => parseStringBody rest (acc.push '/')
      | 'b' => parseStringBody rest (acc.push (Char.ofNat 8))
      | 'f' => parseStringBody rest (acc.push (Char.ofNat 12))
      | 'n' => parseStringBody rest (acc.push '\n')
      | 'r' => parseStringBody rest (acc.push '\r')
      | 't' => parseStringBody rest (acc.push '\t')
      | _ => none
  | c :: rest, acc =>
    if c.toNat < 0x20 then none else parseStringBody rest (acc.push c)

/-- Lex the digits of a number component. -/
def lexDigits : List Char → List Char × List Char
  | [] => ([], [])
  | c :: rest =>
    if c.isDigit then
      let (ds, r) := lexDigits rest
      (c :: ds, r)
    else ([], c :: rest)

/-- Lex a JSON number token starting at the integer part (sign already
consumed by the caller); returns the token text (without sign). -/
def lexNumBody (cs : List Char) : Option (List Char × List Char) :=
  let (intDs, r1) := lexDigits cs
  match natTokenVal intDs with
  | none => none
  | some _ =>
    let (fracPart, r2) : List Char × List Char :=
      match r1 with
      | '.' :: r => match lexDigits r with
        | ([], _) => ([], '.' :: r)
        | (ds, r') => ('.' :: ds, r')
      | _ => ([], r1)
    match r2 with
    | e :: r3 =>
      if e = 'e' ∨ e = 'E' then
        let (sgn, r4) : List Char × List Char :=
          match r3 with
          | '+' :: r => (['+'], r)
          | '-' :: r => (['-'], r)
          | _ => ([], r3)
        match lexDigits r4 with
        | ([], _) =>
          -- no exponent digits: if a fraction was split off keep it, else
          -- the bare integer token (serde would reject `1e`; so do we by
          -- refusing to consume the `e` — the caller then sees garbage)
          if fracPart = [] then some (intDs, r1) else some (intDs ++ fracPart, r2)
        | (ds, r5) => some (intDs ++ fracPart ++ (e :: (sgn ++ ds)), r5)
      else if fracPart = [] then some (intDs, r1)
      else some (intDs ++ fracPart, r2)
    | [] =>
      if fracPart = [] then some (intDs, r1) else some (intDs ++ fracPart, r2)

/-- Expect a literal keyword. -/
def expectChars : List Char → List Char → Option (List Char)
  | [], rest => some rest
  | k :: ks, c :: rest => if c = k then expectChars ks rest else none
  | _ :: _, [] => none

/-- Insert a key/value into an object field list, replacing an existing
binding of the same key (`serde_json` map-insert semantics). -/
def objInsert (fields : List (String × Json)) (k : String) (v : Json) :
    List (String × Json) :=
  match fields with
  | [] => [(k, v)]
  | (k', v') :: rest =>
    if k' = k then (k, v) :: rest else (k', v') :: objInsert rest k v

mutual

/-- Parse one JSON value (input already whitespace-stripped at the front). -/
def parseValue : Nat → List Char → Option (Json × List Char)
  | 0, _ => none
  | _ + 1, [] => none
  | fuel + 1, c :: rest =>
    if c = '{' then parseObjectRest fuel [] (skipWs rest)
    else if c = '[' then
      match skipWs rest with
      | ']' :: r => some (Json.arr [], r)
      | cs => parseArrayRest fuel [] cs
    else if c = '"' then
      (parseStringBody rest "").map fun (s, r) => (Json.str s, r)
    else if c = 't' then
      (expectChars ['r', 'u', 'e'] rest).map fun r => (Json.bool true, r)
    else if c = 'f' then
      (expectChars ['a', 'l', 's', 'e'] rest).map fun r => (Json.bool false, r)
    else if c = 'n' then
      (expectChars ['u', 'l', 'l'] rest).map fun r => (Json.null, r)
    else if c = '-' then
      (lexNumBody rest).map fun (tok, r) =>
        (Json.num (String.mk ('-' :: tok)), r)
    else if c.isDigit then
      (lexNumBody (c :: rest)).map fun (tok, r) => (Json.num (String.mk tok), r)
    else none

/-- Parse the remainder of an object after `{` (whitespace skipped),
accumulating fields; duplicate keys are collapsed, last wins. -/
def parseObjectRest : Nat → List (String × Json) → List Char →
    Option (Json × List Char)
  | 0, _, _ => none
  | _ + 1, acc, '}' :: rest => some (Json.obj acc, rest)
  | fuel + 1, acc, '"' :: rest =>
    match parseStringBody rest "" with
    | none => none
    | some (k, r1) =>
      match skipWs r1 with
      | ':' :: r2 =>
        match parseValue fuel (skipWs r2) with
        | none => none
        | some (v, r3) =>
          let acc' := objInsert acc k v
          match skipWs r3 with
          | ',' :: r4 =>
            match skipWs r4 with
            | '"' :: r5 => parseObjectRest fuel acc' ('"' :: r5)
            | _ => none
          | '}' :: r4 => some (Json.obj acc', r4)
          | _ => none
      | _ => none
  | _ + 1, _, _ => none

/-- Parse the items of a non-empty array (whitespace skipped; positioned at
the start of a value). -/
def parseArrayRest : Nat → List Json → List Char → Option (Json × List Char)
  | 0, _, _ => none
  | fuel + 1, acc, cs =>
    match parseValue fuel cs with
    | none => none
    | some (v, r1) =>
      match skipWs r1 with
      | ',' :: r2 => parseArrayRest fuel (v :: acc) (skipWs r2)
      | ']' :: r2 => some (Json.arr (v :: acc).reverse, r2)
      | _ => none

end

/-- `serde_json::from_str::<Value>`: one complete JSON value, optionally
surrounded by whitespace; anything else is a parse error (`none`). -/
def parseJson (s : String) : Option Json :=
  let cs := skipWs s.toList
  match parseValue (2 * cs.length + 8) cs with
  | some (j, rest) => if skipWs rest = [] then some j else none
  | none => none

/-! ### Data model (`WindowInfo`, `WindowLayout`, `WorkspaceInfo`, `NiriBus`) -/

/-- `struct WindowLayout` — the four 2-element geometry records. -/
structure WindowLayout where
  pos_in_scrolling_layout : F × F
  tile_size : F × F
  window_size : F × F
  window_offset_in_tile : F × F
deriving DecidableEq, Repr

/-- `struct WindowInfo`. -/
structure WindowInfo where
  id : Int
  title : String
  app_id : String
  workspace_id : Int
  is_focused : Bool
  is_floating : Bool
  layout : Option WindowLayout
deriving DecidableEq, Repr

/-- `struct WorkspaceInfo`. -/
structure WorkspaceInfo where
  id : Int
  idx : Int
  name : Option String
  is_focused : Bool
deriving DecidableEq, Repr

/-- The mutable fields of `struct NiriBus` (each a `Mutex` in the source;
the event thread is the sole writer, so one sequential state suffices).
The `HashMap<i64, WindowInfo>` is modelled as an association list with
insert-in-place/append semantics; lookups never depend on entry order. -/
structure BusState where
  windows_by_id : List (Int × WindowInfo)
  focused_window_id : Option Int
  workspaces : List WorkspaceInfo
  keyboard_layout_names : List String
  current_keyboard_layout_index : Option Nat
  overview_is_open : Bool
deriving DecidableEq, Repr

/-- `NiriBus::new()` — the all-empty initial state. -/
def BusState.initial : BusState :=
  { windows_by_id := []
    focused_window_id := none
    workspaces := []
    keyboard_layout_names := []
    current_keyboard_layout_index := none
    overview_is_open := false }

/-- `HashMap::get`. -/
def mapGet : List (Int × WindowInfo) → Int → Option WindowInfo
  | [], _ => none
  | p :: rest, id => if id = p.1 then some p.2 else mapGet rest id

/-- `HashMap::insert` (replace in place if the key exists, else add). -/
def mapInsert (m : List (Int × WindowInfo)) (k : Int) (v : WindowInfo) :
    List (Int × WindowInfo) :=
  if (mapGet m k).isSome then
    m.map fun p => if p.1 = k then (k, v) else p
  else m ++ [(k, v)]

/-- `HashMap::remove`. -/
def mapRemove (m : List (Int × WindowInfo)) (k : Int) :
    List (Int × WindowInfo) :=
  m.filter fun p => p.1 ≠ k

/-- `HashMap::get_mut` followed by a field mutation: update the entry at the
key if present, otherwise do nothing. -/
def mapUpdate (m : List (Int × WindowInfo)) (k : Int)
    (f : WindowInfo → WindowInfo) : List (Int × WindowInfo) :=
  m.map fun p => if p.1 = k then (k, f p.2) else p

/-! ### Field decoding, as done inline in `NiriBus::handle_json` -/

/-- The `if v.is_null() { Some(None) } else { v.as_i64().map(Some) }`
followed by `.flatten()` idiom: yields `some id` exactly when the field is
present and an integer, `none` otherwise (absent, null, or non-integer). -/
def decodeNullableI64 (v : Option Json) : Option Int :=
  match v with
  | some Json.null => none
  | some j => j.asI64
  | none => none

/-- One 2-element numeric array field of a layout object:
`get(name).and_then(as_array)` then, if the length is at least 2, the first
two elements via `as_f64().unwrap_or(0.0)`. -/
def decodePair (v : Option Json) : Option (F × F) :=
  (v.bind Json.asArray).bind fun a =>
    match a with
    | x :: y :: _ => some ((x.asF64).getD f64Zero, (y.asF64).getD f64Zero)
    | _ => none

/-- The four-field layout decode used (via `?`-chaining in the ingest
functions, and via a 4-way `if let` in `WindowLayoutsChanged`): all four
sub-fields must decode or the layout is absent as a unit. -/
def decodeLayoutObj (fields : List (String × Json)) : Option WindowLayout :=
  (decodePair (oGet fields "pos_in_scrolling_layout")).bind fun pos =>
  (decodePair (oGet fields "tile_size")).bind fun tile =>
  (decodePair (oGet fields "window_size")).bind fun wsz =>
  (decodePair (oGet fields "window_offset_in_tile")).bind fun woff =>
  some { pos_in_scrolling_layout := pos
         tile_size := tile
         window_size := wsz
         window_offset_in_tile := woff }

/-- Decoding of one window object as done in `ingest_windows_array` /
`ingest_window_object`: `id` and `title` are required (the window is skipped
without them); `app_id`, `workspace_id`, `is_focused`, `is_floating` default
to `""`, `0`, `false`, `false`; `layout` decodes strictly or is `none`. -/
def decodeWindow (o : List (String × Json)) : Option WindowInfo :=
  match (oGet o "id").bind Json.asI64, (oGet o "title").bind Json.asStr with
  | some id, some title =>
    some { id := id
           title := title
           app_id := ((oGet o "app_id").bind Json.asStr).getD ""
           workspace_id := ((oGet o "workspace_id").bind Json.asI64).getD 0
           is_focused := ((oGet o "is_focused").bind Json.asBool).getD false
           is_floating := ((oGet o "is_floating").bind Json.asBool).getD false
           layout := ((oGet o "layout").bind Json.asObject).bind decodeLayoutObj }
  | _, _ => none

/-! ### The event appliers.  Each returns the next state paired with the
number of `notify_ui` / `queue_broadcast_title` signals the branch emits. -/

/-- One iteration of the `ingest_windows_array` loop: upsert the decoded
window and remember its id when its focus flag is set. -/
def windowStep (acc : List (Int × WindowInfo) × Option Int) (v : Json) :
    List (Int × WindowInfo) × Option Int :=
  match v.asObject.bind decodeWindow with
  | some w =>
    (mapInsert acc.1 w.id w, if w.is_focused then some w.id else acc.2)
  | none => acc

/-- `NiriBus::ingest_windows_array`: upsert every decodable window, remember
the id of the last entry whose `is_focused` is true, overwrite the Focus
Pointer only when such an entry existed, then signal once. -/
def ingest_windows_array (st : BusState) (arr : List Json) : BusState × Nat :=
  let r := arr.foldl windowStep (st.windows_by_id, none)
  ({ st with
      windows_by_id := r.1
      focused_window_id :=
        match r.2 with
        | some fid => some fid
        | none => st.focused_window_id }, 1)

/-- `NiriBus::ingest_window_object`: upsert one window (signal once) when
`id` and `title` decode, otherwise do nothing at all. -/
def ingest_window_object (st : BusState) (o : List (String × Json)) :
    BusState × Nat :=
  match decodeWindow o with
  | some w => ({ st with windows_by_id := mapInsert st.windows_by_id w.id w }, 1)
  | none => (st, 0)

/-- The `WindowClosed` branch: remove the window, clear the Focus Pointer
when it referenced the closed id, signal once. -/
def applyWindowClosed (st : BusState) (v : Json) : BusState × Nat :=
  match (jGet v "id").bind Json.asI64 with
  | some id =>
    ({ st with
        windows_by_id := mapRemove st.windows_by_id id
        focused_window_id :=
          if st.focused_window_id = some id then none
          else st.focused_window_id }, 1)
  | none => (st, 0)

/-- One entry of a `WindowLayoutsChanged` batch: a two-element array
`[id, layoutObject]`; the layout field of an existing window is replaced
only when all four sub-fields decode, otherwise the entry has no effect. -/
def layoutStep (m : List (Int × WindowInfo)) (entry : Json) :
    List (Int × WindowInfo) :=
  match entry.asArray with
  | some [a, b] =>
    match a.asI64, b.asObject with
    | some id, some lo =>
      match mapGet m id with
      | some win =>
        match decodeLayoutObj lo with
        | some l => mapInsert m id { win with layout := some l }
        | none => m
      | none => m
    | _, _ => m
  | _ => m

/-- The `WindowLayoutsChanged` branch: fold the batch over the window map
when the `changes` array decodes, then signal once (the signal is emitted
even when `changes` is missing — it sits outside the inner `if let`). -/
def applyWindowLayoutsChanged (st : BusState) (v : Json) : BusState × Nat :=
  match (jGet v "changes").bind Json.asArray with
  | some changes =>
    ({ st with windows_by_id := changes.foldl layoutStep st.windows_by_id }, 1)
  | none => (st, 1)

/-- The shared body of `WindowFocusChanged` / `WorkspaceActiveWindowChanged`:
unconditionally set the Focus Pointer to the decoded id (which is `none`
when the field is null, absent or ill-typed), clear the old focused window's
flag, set the new one's, signal once. -/
def applyFocusTo (st : BusState) (newIdOpt : Option Int) : BusState × Nat :=
  let m1 := match st.focused_window_id with
    | some oldId => mapUpdate st.windows_by_id oldId fun w => { w with is_focused := false }
    | none => st.windows_by_id
  let m2 := match newIdOpt with
    | some newId => mapUpdate m1 newId fun w => { w with is_focused := true }
    | none => m1
  ({ st with windows_by_id := m2, focused_window_id := newIdOpt }, 1)

/-- The `WorkspaceActivated` branch: when `id` decodes, set every
workspace's focus flag to "my id equals the activated id"; no signal. -/
def applyWorkspaceActivated (st : BusState) (v : Json) : BusState × Nat :=
  match (jGet v "id").bind Json.asI64 with
  | some wsId =>
    ({ st with
        workspaces := st.workspaces.map fun w =>
          { w with is_focused := w.id = wsId } }, 0)
  | none => (st, 0)

/-- Workspace-entry accumulation in the `WorkspacesChanged` branch: build
the decoded list (entries need `id` and `idx`) and remember, for the last
entry whose `is_focused` decodes to true, its nullable `active_window_id`
(tracked even when the entry itself was skipped for missing `id`/`idx`). -/
def workspaceStep (acc : List WorkspaceInfo × Option (Option Int)) (v : Json) :
    List WorkspaceInfo × Option (Option Int) :=
  match v.asObject with
  | some o =>
    let idOpt := (oGet o "id").bind Json.asI64
    let idxOpt := (oGet o "idx").bind Json.asI64
    let name := (oGet o "name").bind Json.asStr
    let isFocused := ((oGet o "is_focused").bind Json.asBool).getD false
    let list' := match idOpt, idxOpt with
      | some id, some idx =>
        acc.1 ++ [{ id := id, idx := idx, name := name, is_focused := isFocused }]
      | _, _ => acc.1
    let fa' := if isFocused then
        some (decodeNullableI64 (oGet o "active_window_id"))
      else acc.2
    (list', fa')
  | none => acc

/-- Rust's stable `sort_by_key(|w| w.idx)`; `List.insertionSort` is stable,
so it computes the identical permutation. -/
def sortByIdx (l : List WorkspaceInfo) : List WorkspaceInfo :=
  l.insertionSort fun a b => a.idx ≤ b.idx

/-- The `WorkspacesChanged` branch: replace the workspace list with the
decoded entries sorted ascending by `idx`; when some entry was marked
focused, additionally overwrite the Focus Pointer with that entry's
`active_window_id` and signal once (no signal otherwise). -/
def applyWorkspacesChanged (st : BusState) (v : Json) : BusState × Nat :=
  match (jGet v "workspaces").bind Json.asArray with
  | some wv =>
    let r := wv.foldl workspaceStep ([], none)
    let sorted := sortByIdx r.1
    match r.2 with
    | some awOpt =>
      ({ st with workspaces := sorted, focused_window_id := awOpt }, 1)
    | none => ({ st with workspaces := sorted }, 0)
  | none => (st, 0)

/-- The `KeyboardLayoutsChanged` branch: replace names (non-string entries
filtered out, missing array meaning `[]`) and current index; no signal. -/
def applyKeyboardLayoutsChanged (st : BusState) (v : Json) : BusState × Nat :=
  match (jGet v "keyboard_layouts").bind Json.asObject with
  | some kb =>
    let names := (((oGet kb "names").bind Json.asArray).map
      fun a => a.filterMap Json.asStr).getD []
    let idxOpt := (oGet kb "current_idx").bind Json.asU64
    ({ st with
        keyboard_layout_names := names
        current_keyboard_layout_index := idxOpt }, 0)
  | none => (st, 0)

/-- The `OverviewOpenedOrClosed` branch: replace the flag when `is_open`
decodes as a boolean; no signal. -/
def applyOverview (st : BusState) (v : Json) : BusState × Nat :=
  match (jGet v "is_open").bind Json.asBool with
  | some b => ({ st with overview_is_open := b }, 0)
  | none => (st, 0)

/-- `NiriBus::handle_json`: the discriminator `if/else if` chain keyed on
`contains_key`, in source order.  Returns the next state and how many times
the branch signalled the notification hub. -/
def handle_json (st : BusState) (j : Json) : BusState × Nat :=
  match j.asObject with
  | none => (st, 0)
  | some o =>
    if oContains o "WindowsChanged" then
      match ((oGet o "WindowsChanged").bind (jGet · "windows")).bind Json.asArray with
      | some wv => ingest_windows_array st wv
      | none => (st, 0)
    else if oContains o "WindowOpenedOrChanged" then
      match ((oGet o "WindowOpenedOrChanged").bind (jGet · "window")).bind Json.asObject with
      | some win => ingest_window_object st win
      | none => (st, 0)
    else if oContains o "WindowClosed" then
      match oGet o "WindowClosed" with
      | some v => applyWindowClosed st v
      | none => (st, 0)
    else if oContains o "WindowLayoutsChanged" then
      match oGet o "WindowLayoutsChanged" with
      | some v => applyWindowLayoutsChanged st v
      | none => (st, 0)
    else if oContains o "WindowFocusChanged" then
      applyFocusTo st (decodeNullableI64 ((oGet o "WindowFocusChanged").bind (jGet · "id")))
    else if oContains o "WorkspaceActiveWindowChanged" then
      applyFocusTo st (decodeNullableI64
        ((oGet o "WorkspaceActiveWindowChanged").bind (jGet · "active_window_id")))
    else if oContains o "WorkspaceActivated" then
      match oGet o "WorkspaceActivated" with
      | some v => applyWorkspaceActivated st v
      | none => (st, 0)
    else if oContains o "WorkspacesChanged" then
      match oGet o "WorkspacesChanged" with
      | some v => applyWorkspacesChanged st v
      | none => (st, 0)
    else if oContains o "KeyboardLayoutsChanged" then
      match oGet o "KeyboardLayoutsChanged" with
      | some v => applyKeyboardLayoutsChanged st v
      | none => (st, 0)
    else if oContains o "OverviewOpenedOrClosed" then
      match oGet o "OverviewOpenedOrClosed" with
      | some v => applyOverview st v
      | none => (st, 0)
    else (st, 0)

/-- `NiriBus::handle_json_line`: parse, dispatch; a parse error only logs. -/
def handle_json_line (st : BusState) (line : String) : BusState × Nat :=
  match parseJson line with
  | some j => handle_json st j
  | none => (st, 0)

/-- State part of `handle_json_line` (applying one raw line). -/
def applyLine (st : BusState) (line : String) : BusState :=
  (handle_json_line st line).1

/-! ### Query / snapshot accessors -/

/-- `NiriBus::current_title`. -/
def current_title (st : BusState) : String :=
  match st.focused_window_id with
  | some fid =>
    match mapGet st.windows_by_id fid with
    | some win => win.title
    | none => ""
  | none => ""

/-- The `cur` computation shared by both cycling accessors: the position of
the first focused workspace, or 0 when none is focused. -/
def curFocusedPos (l : List WorkspaceInfo) : Nat :=
  (l.findIdx? fun w => w.is_focused).getD 0

/-- `NiriBus::next_prev_workspace_id`. -/
def next_prev_workspace_id (st : BusState) (forward wrap : Bool) : Option Int :=
  let l := st.workspaces
  if l.isEmpty then none
  else
    let cur := curFocusedPos l
    if forward then
      if cur + 1 < l.length then (l.get? (cur + 1)).map (·.id)
      else if wrap then (l.get? 0).map (·.id)
      else none
    else if cur > 0 then (l.get? (cur - 1)).map (·.id)
    else if wrap then (l.get? (l.length - 1)).map (·.id)
    else none

/-- `NiriBus::next_prev_workspace_idx`. -/
def next_prev_workspace_idx (st : BusState) (forward wrap : Bool) : Option Int :=
  let l := st.workspaces
  if l.isEmpty then none
  else
    let cur := curFocusedPos l
    if forward then
      if cur + 1 < l.length then (l.get? (cur + 1)).map (·.idx)
      else if wrap then (l.get? 0).map (·.idx)
      else none
    else if cur > 0 then (l.get? (cur - 1)).map (·.idx)
    else if wrap then (l.get? (l.length - 1)).map (·.idx)
    else none

/-! ### Event constructors (the wire shapes of §6, as decoded `Json`) -/

/-- `{"WindowsChanged":{"windows":[...]}}`. -/
def mkWindowsChanged (ws : List Json) : Json :=
  .obj [("WindowsChanged", .obj [("windows", .arr ws)])]

/-- `{"WindowOpenedOrChanged":{"window":{...}}}`. -/
def mkWindowOpenedOrChanged (o : List (String × Json)) : Json :=
  .obj [("WindowOpenedOrChanged", .obj [("window", .obj o)])]

/-- `{"WindowClosed":{"id":<n>}}`. -/
def mkWindowClosed (rawId : String) : Json :=
  .obj [("WindowClosed", .obj [("id", .num rawId)])]

/-- `{"WindowLayoutsChanged":{"changes":[...]}}`. -/
def mkWindowLayoutsChanged (changes : List Json) : Json :=
  .obj [("WindowLayoutsChanged", .obj [("changes", .arr changes)])]

/-- `{"WindowFocusChanged":{"id":<v>}}`. -/
def mkWindowFocusChanged (v : Json) : Json :=
  .obj [("WindowFocusChanged", .obj [("id", v)])]

/-- `{"WorkspaceActiveWindowChanged":{"workspace_id":<n>,"active_window_id":<v>}}`. -/
def mkWorkspaceActiveWindowChanged (rawWs : String) (v : Json) : Json :=
  .obj [("WorkspaceActiveWindowChanged",
         .obj [("workspace_id", .num rawWs), ("active_window_id", v)])]

/-- `{"WorkspaceActivated":{"id":<n>,"focused":true}}`. -/
def mkWorkspaceActivated (rawId : String) : Json :=
  .obj [("WorkspaceActivated", .obj [("id", .num rawId), ("focused", .bool true)])]

/-- `{"WorkspacesChanged":{"workspaces":[...]}}`. -/
def mkWorkspacesChanged (ws : List Json) : Json :=
  .obj [("WorkspacesChanged", .obj [("workspaces", .arr ws)])]

/-- `{"KeyboardLayoutsChanged":{"keyboard_layouts":{...}}}`. -/
def mkKeyboardLayoutsChanged (kb : List (String × Json)) : Json :=
  .obj [("KeyboardLayoutsChanged", .obj [("keyboard_layouts", .obj kb)])]

/-- `{"OverviewOpenedOrClosed":{"is_open":<b>}}`. -/
def mkOverview (b : Bool) : Json :=
  .obj [("OverviewOpenedOrClosed", .obj [("is_open", .bool b)])]

/-! ### Specification-side observation functions.

These restate, by recursion over the *incoming* array, which entry a batch
makes authoritative for a given id — the theorems then characterize the
fold in `ingest_windows_array` / `applyWorkspacesChanged` against them. -/

/-- Decode one element of a `windows` array (`as_object` + window decode). -/
def specDecodeWin (v : Json) : Option WindowInfo :=
  v.asObject.bind decodeWindow

/-- The last window in the array that decodes and carries the given id. -/
def specLastWin : List Json → Int → Option WindowInfo
  | [], _ => none
  | v :: rest, id =>
    match specLastWin rest id with
    | some w => some w
    | none =>
      match specDecodeWin v with
      | some w => if w.id = id then some w else none
      | none => none

/-- The id of the last window in the array that decodes with its focus flag
set. -/
def specLastFocused : List Json → Option Int
  | [] => none
  | v :: rest =>
    match specLastFocused rest with
    | some i => some i
    | none =>
      match specDecodeWin v with
      | some w => if w.is_focused then some w.id else none
      | none => none

/-- Decode one element of a `workspaces` array (`id` and `idx` required). -/
def specDecodeWorkspace (v : Json) : Option WorkspaceInfo :=
  v.asObject.bind fun o =>
    match (oGet o "id").bind Json.asI64, (oGet o "idx").bind Json.asI64 with
    | some id, some idx =>
      some { id := id
             idx := idx
             name := (oGet o "name").bind Json.asStr
             is_focused := ((oGet o "is_focused").bind Json.asBool).getD false }
    | _, _ => none

/-- All decodable workspaces of the array, in arrival order. -/
def specDecodedWorkspaces (wv : List Json) : List WorkspaceInfo :=
  wv.filterMap specDecodeWorkspace

/-- For the last array element marked `is_focused`, its (nullable)
`active_window_id`; `none` when no element is marked focused. -/
def specLastFocusedActive : List Json → Option (Option Int)
  | [] => none
  | v :: rest =>
    match specLastFocusedActive rest with
    | some x => some x
    | none =>
      match v.asObject with
      | some o =>
        if ((oGet o "is_focused").bind Json.asBool).getD false then
          some (decodeNullableI64 (oGet o "active_window_id"))
        else none
      | none => none

/-- Whether a `WindowLayoutsChanged` entry actually writes the layout of the
window with the given id: a two-element `[id', layoutObject]` form with
`id' = id` and all four layout sub-fields decodable. -/
def entryWritesId (e : Json) (id : Int) : Bool :=
  match e.asArray with
  | some [a, b] =>
    (a.asI64 == some id) &&
      (match b.asObject with
       | some lo => (decodeLayoutObj lo).isSome
       | none => false)
  | _ => false

/-! ### Association-map lemmas -/

theorem mapGet_mapReplace (m : List (Int × WindowInfo)) (k : Int)
    (v : WindowInfo) (id : Int) :
    mapGet (m.map fun p => if p.1 = k then (k, v) else p) id =
      if id = k then (if (mapGet m k).isSome then some v else none)
      else mapGet m id := by
  induction m with
  | nil => simp [mapGet]
  | cons p rest ih =>
    by_cases hk : p.1 = k
    · have hk' : k = p.1 := hk.symm
      simp only [List.map_cons, if_pos hk, mapGet, if_pos hk']
      by_cases hid : id = k
      · simp [hid, hk.symm]
      · have hid' : ¬(id = p.1) := fun h => hid (h.trans hk)
        simp [hid, hid', ih]
    · have hk' : ¬(k = p.1) := fun h => hk h.symm
      simp only [List.map_cons, if_neg hk, mapGet, if_neg hk']
      by_cases hid : id = p.1
      · have hidk : ¬(id = k) := fun h => hk (hid ▸ h)
        simp [hid, hidk, hk]
      · simp [hid, ih]

theorem mapGet_append_single (m : List (Int × WindowInfo)) (k : Int)
    (v : WindowInfo) (id : Int) (h : mapGet m k = none) :
    mapGet (m ++ [(k, v)]) id = if id = k then some v else mapGet m id := by
  induction m with
  | nil => simp [mapGet]
  | cons p rest ih =>
    have hk : ¬(k = p.1) := by
      intro hkk
      rw [mapGet, if_pos hkk] at h
      exact Option.noConfusion h
    have hrest : mapGet rest k = none := by
      rw [mapGet, if_neg hk] at h
      exact h
    have hk2 : ¬(p.1 = k) := fun h => hk h.symm
    by_cases hid : id = p.1
    · have hidk : ¬(id = k) := fun hh => hk (hh ▸ hid)
      simp [mapGet, hid, hidk, hk2]
    · simp [mapGet, hid, ih hrest]

theorem mapGet_insert (m : List (Int × WindowInfo)) (k : Int) (v : WindowInfo)
    (id : Int) :
    mapGet (mapInsert m k v) id = if id = k then some v else mapGet m id := by
  unfold mapInsert
  by_cases hmem : (mapGet m k).isSome
  · simp [hmem, mapGet_mapReplace]
  · have hnone : mapGet m k = none := by
      cases h : mapGet m k with
      | none => rfl
      | some w => rw [h] at hmem; simp at hmem
    simp [hmem, mapGet_append_single m k v id hnone]

theorem mapGet_remove (m : List (Int × WindowInfo)) (k : Int) (id : Int) :
    mapGet (mapRemove m k) id = if id = k then none else mapGet m id := by
  induction m with
  | nil => simp [mapGet, mapRemove]
  | cons p rest ih =>
    by_cases hk : p.1 = k
    · have hstep : mapRemove (p :: rest) k = mapRemove rest k := by
        simp [mapRemove, List.filter_cons, hk]
      rw [hstep, ih]
      by_cases hid : id = k
      · simp [hid]
      · have hid' : ¬(id = p.1) := fun h => hid (h.trans hk)
        simp [hid, mapGet, hid']
    · have hstep : mapRemove (p :: rest) k = p :: mapRemove rest k := by
        simp [mapRemove, List.filter_cons, hk]
      rw [hstep, mapGet, ih]
      by_cases hid : id = p.1
      · have hidk : ¬(id = k) := fun h => hk (hid ▸ h)
        simp [hid, hidk, mapGet, hk]
      · simp [hid, mapGet]

theorem mapGet_update (m : List (Int × WindowInfo)) (k : Int)
    (f : WindowInfo → WindowInfo) (id : Int) :
    mapGet (mapUpdate m k f) id =
      if id = k then (mapGet m k).map f else mapGet m id := by
  induction m with
  | nil => simp [mapGet, mapUpdate]
  | cons p rest ih =>
    rw [mapUpdate] at ih
    by_cases hk : p.1 = k
    · have hk' : k = p.1 := hk.symm
      simp only [mapUpdate, List.map_cons, if_pos hk, mapGet, if_pos hk']
      by_cases hid : id = k
      · simp [hid, hk.symm]
      · have hid' : ¬(id = p.1) := fun h => hid (h.trans hk)
        simp [hid, hid', ih]
    · have hk' : ¬(k = p.1) := fun h => hk h.symm
      simp only [mapUpdate, List.map_cons, if_neg hk, mapGet, if_neg hk']
      by_cases hid : id = p.1
      · have hidk : ¬(id = k) := fun h => hk (hid ▸ h)
        simp [hid, hidk, hk]
      · simp [hid, ih]

/-! ### Characterizations of the batch folds -/

theorem windowFold_get (arr : List Json) :
    ∀ (m : List (Int × WindowInfo)) (foc : Option Int) (id : Int),
      mapGet (arr.foldl windowStep (m, foc)).1 id =
        (match specLastWin arr id with
         | some w => some w
         | none => mapGet m id) := by
  induction arr with
  | nil => intro m foc id; simp [specLastWin]
  | cons v rest ih =>
    intro m foc id
    rw [List.foldl_cons]
    cases hv : v.asObject.bind decodeWindow with
    | none =>
      have hstep : windowStep (m, foc) v = (m, foc) := by
        simp [windowStep, hv]
      rw [hstep, ih]
      have hspec : specLastWin (v :: rest) id = specLastWin rest id := by
        rw [specLastWin]
        cases h2 : specLastWin rest id <;> simp [specDecodeWin, hv]
      rw [hspec]
    | some w =>
      have hstep : windowStep (m, foc) v =
          (mapInsert m w.id w, if w.is_focused then some w.id else foc) := by
        simp [windowStep, hv]
      rw [hstep, ih]
      rw [specLastWin]
      cases h2 : specLastWin rest id with
      | some w' => simp
      | none =>
        simp only [specDecodeWin, hv]
        by_cases hwid : w.id = id
        · subst hwid
          simp [mapGet_insert]
        · have hne : ¬(id = w.id) := fun h => hwid h.symm
          simp [hwid, mapGet_insert, hne]

theorem windowFold_foc (arr : List Json) :
    ∀ (m : List (Int × WindowInfo)) (foc : Option Int),
      (arr.foldl windowStep (m, foc)).2 =
        (match specLastFocused arr with
         | some i => some i
         | none => foc) := by
  induction arr with
  | nil => intro m foc; simp [specLastFocused]
  | cons v rest ih =>
    intro m foc
    rw [List.foldl_cons]
    cases hv : v.asObject.bind decodeWindow with
    | none =>
      have hstep : windowStep (m, foc) v = (m, foc) := by
        simp [windowStep, hv]
      rw [hstep, ih, specLastFocused]
      cases h2 : specLastFocused rest <;> simp [specDecodeWin, hv]
    | some w =>
      have hstep : windowStep (m, foc) v =
          (mapInsert m w.id w, if w.is_focused then some w.id else foc) := by
        simp [windowStep, hv]
      rw [hstep, ih, specLastFocused]
      cases h2 : specLastFocused rest with
      | some i => simp
      | none =>
        simp only [specDecodeWin, hv]
        by_cases hf : w.is_focused <;> simp [hf]

theorem layoutStep_no_write (m : List (Int × WindowInfo)) (e : Json)
    (id : Int) (he : entryWritesId e id = false) :
    mapGet (layoutStep m e) id = mapGet m id := by
  unfold layoutStep
  split
  · rename_i a b harr
    split
    · rename_i id' lo hid' hlo
      split
      · rename_i win hwin
        split
        · rename_i l hl
          by_cases hii : id' = id
          · subst hii
            simp only [entryWritesId, harr, hid', hlo, hl] at he
            simp at he
          · have hne : ¬(id = id') := fun h => hii h.symm
            simp [mapGet_insert, hne]
        · rfl
      · rfl
    · rfl
  · rfl

theorem layoutStep_absent (m : List (Int × WindowInfo)) (e : Json)
    (id : Int) (h : mapGet m id = none) :
    mapGet (layoutStep m e) id = none := by
  unfold layoutStep
  split
  · rename_i a b harr
    split
    · rename_i id' lo hid' hlo
      split
      · rename_i win hwin
        split
        · rename_i l hl
          have hne : ¬(id = id') := by
            intro hh
            rw [hh, hwin] at h
            exact Option.noConfusion h
          simp [mapGet_insert, hne, h]
        · exact h
      · exact h
    · exact h
  · exact h

theorem layoutFold_no_write (changes : List Json) :
    ∀ (m : List (Int × WindowInfo)) (id : Int),
      (∀ e ∈ changes, entryWritesId e id = false) →
      mapGet (changes.foldl layoutStep m) id = mapGet m id := by
  induction changes with
  | nil => intro m id _; rfl
  | cons e rest ih =>
    intro m id h
    rw [List.foldl_cons]
    have he : entryWritesId e id = false := h e (List.mem_cons_self e rest)
    have hrest : ∀ e' ∈ rest, entryWritesId e' id = false := fun e' hmem =>
      h e' (List.mem_cons_of_mem e hmem)
    rw [ih (layoutStep m e) id hrest, layoutStep_no_write m e id he]

theorem layoutFold_absent (changes : List Json) :
    ∀ (m : List (Int × WindowInfo)) (id : Int),
      mapGet m id = none →
      mapGet (changes.foldl layoutStep m) id = none := by
  induction changes with
  | nil => intro m id h; exact h
  | cons e rest ih =>
    intro m id h
    rw [List.foldl_cons]
    exact ih (layoutStep m e) id (layoutStep_absent m e id h)

theorem wsFold_list (wv : List Json) :
    ∀ (acc : List WorkspaceInfo × Option (Option Int)),
      (wv.foldl workspaceStep acc).1 = acc.1 ++ specDecodedWorkspaces wv := by
  induction wv with
  | nil => intro acc; simp [specDecodedWorkspaces]
  | cons v rest ih =>
    intro acc
    rw [List.foldl_cons, ih]
    have hhead : (workspaceStep acc v).1 =
        acc.1 ++ (match specDecodeWorkspace v with
                  | some w => [w]
                  | none => []) := by
      unfold workspaceStep specDecodeWorkspace
      cases ho : v.asObject with
      | none => simp
      | some o =>
        simp only [Option.bind_some, Option.some_bind]
        cases hid : (oGet o "id").bind Json.asI64 with
        | none =>
          cases hidx : (oGet o "idx").bind Json.asI64 <;> simp [hid, hidx]
        | some i =>
          cases hidx : (oGet o "idx").bind Json.asI64 <;> simp [hid, hidx]
    rw [hhead]
    cases hw : specDecodeWorkspace v <;>
      simp [hw, specDecodedWorkspaces, List.filterMap_cons, List.append_assoc]

theorem wsFold_foc (wv : List Json) :
    ∀ (acc : List WorkspaceInfo × Option (Option Int)),
      (wv.foldl workspaceStep acc).2 =
        (match specLastFocusedActive wv with
         | some x => some x
         | none => acc.2) := by
  induction wv with
  | nil => intro acc; simp [specLastFocusedActive]
  | cons v rest ih =>
    intro acc
    rw [List.foldl_cons, ih, specLastFocusedActive]
    cases h2 : specLastFocusedActive rest with
    | some x => simp
    | none =>
      cases ho : v.asObject with
      | none => simp [workspaceStep, ho]
      | some o =>
        by_cases hf : ((oGet o "is_focused").bind Json.asBool).getD false
        · simp [workspaceStep, ho, hf]
        · simp only [Bool.not_eq_true] at hf
          unfold workspaceStep
          rw [ho]
          simp only [hf]
          cases hid : (oGet o "id").bind Json.asI64 with
          | none => cases hidx : (oGet o "idx").bind Json.asI64 <;> simp
          | some i => cases hidx : (oGet o "idx").bind Json.asI64 <;> simp

/-! ### `handle_json` reduced on each constructed event shape -/

theorem handle_mkWindowsChanged (st : BusState) (ws : List Json) :
    handle_json st (mkWindowsChanged ws) = ingest_windows_array st ws := rfl

theorem handle_mkWindowOpenedOrChanged (st : BusState)
    (o : List (String × Json)) :
    handle_json st (mkWindowOpenedOrChanged o) = ingest_window_object st o := rfl

theorem handle_mkWindowClosed (st : BusState) (raw : String) :
    handle_json st (mkWindowClosed raw) =
      applyWindowClosed st (.obj [("id", .num raw)]) := rfl

theorem handle_mkWindowLayoutsChanged (st : BusState) (changes : List Json) :
    handle_json st (mkWindowLayoutsChanged changes) =
      applyWindowLayoutsChanged st (.obj [("changes", .arr changes)]) := rfl

theorem handle_mkWindowFocusChanged (st : BusState) (v : Json) :
    handle_json st (mkWindowFocusChanged v) =
      applyFocusTo st (decodeNullableI64 (some v)) := rfl

theorem handle_mkWorkspaceActiveWindowChanged (st : BusState)
    (rawWs : String) (v : Json) :
    handle_json st (mkWorkspaceActiveWindowChanged rawWs v) =
      applyFocusTo st (decodeNullableI64 (some v)) := rfl

theorem handle_mkWorkspaceActivated (st : BusState) (raw : String) :
    handle_json st (mkWorkspaceActivated raw) =
      applyWorkspaceActivated st
        (.obj [("id", .num raw), ("focused", .bool true)]) := rfl

theorem handle_mkWorkspacesChanged (st : BusState) (ws : List Json) :
    handle_json st (mkWorkspacesChanged ws) =
      applyWorkspacesChanged st (.obj [("workspaces", .arr ws)]) := rfl

theorem handle_mkKeyboardLayoutsChanged (st : BusState)
    (kb : List (String × Json)) :
    handle_json st (mkKeyboardLayoutsChanged kb) =
      applyKeyboardLayoutsChanged st (.obj [("keyboard_layouts", .obj kb)]) := rfl

theorem handle_mkOverview (st : BusState) (b : Bool) :
    handle_json st (mkOverview b) =
      applyOverview st (.obj [("is_open", .bool b)]) := rfl

/-! ### Claim C1 — `WindowsChanged` -/

/-- A pre-existing window, cached under id 5 and absent from the batch below. -/
def cexWin5 : WindowInfo :=
  { id := 5, title := "old", app_id := "", workspace_id := 0
    is_focused := false, is_floating := false, layout := none }

/-- A state already holding window 5. -/
def cexState1 : BusState :=
  { BusState.initial with windows_by_id := [(5, cexWin5)] }

/-- A `WindowsChanged` batch mentioning only window 6. -/
def cexBatch1 : List Json :=
  [Json.obj [("id", Json.num "6"), ("title", Json.str "fresh")]]

/-- C1 counterexample: the claim says a `WindowsChanged` batch replaces the
window cache entirely, so window 5 — absent from the batch — should be gone.
It is still cached afterwards: `ingest_windows_array` only upserts and never
clears the map. -/
theorem C1_window_cache_not_replaced :
    specLastWin cexBatch1 5 = none ∧
    mapGet (handle_json cexState1 (mkWindowsChanged cexBatch1)).1.windows_by_id 5 =
      some cexWin5 :=
  ⟨rfl, rfl⟩

/-- C1 (amended): applying `WindowsChanged` with array `A` *upserts* the
windows decoded from `A` (last entry per id wins) and keeps every window
not mentioned in `A`; the Focus Pointer becomes the id of the last decoded
entry whose focus flag is true, and keeps its prior value when no entry is
focused; all other state is untouched and the hub is signalled once. -/
theorem C1_windowsChanged_upserts_and_refocuses (st : BusState)
    (arr : List Json) (id : Int) :
    mapGet (handle_json st (mkWindowsChanged arr)).1.windows_by_id id =
      (match specLastWin arr id with
       | some w => some w
       | none => mapGet st.windows_by_id id) ∧
    (handle_json st (mkWindowsChanged arr)).1.focused_window_id =
      (match specLastFocused arr with
       | some f => some f
       | none => st.focused_window_id) ∧
    (handle_json st (mkWindowsChanged arr)).1.workspaces = st.workspaces ∧
    (handle_json st (mkWindowsChanged arr)).1.keyboard_layout_names =
      st.keyboard_layout_names ∧
    (handle_json st (mkWindowsChanged arr)).1.current_keyboard_layout_index =
      st.current_keyboard_layout_index ∧
    (handle_json st (mkWindowsChanged arr)).1.overview_is_open =
      st.overview_is_open ∧
    (handle_json st (mkWindowsChanged arr)).2 = 1 := by
  refine ⟨?_, ?_, rfl, rfl, rfl, rfl, rfl⟩
  · exact windowFold_get arr st.windows_by_id none id
  · show (match (arr.foldl windowStep (st.windows_by_id, none)).2 with
          | some fid => some fid
          | none => st.focused_window_id) = _
    rw [windowFold_foc arr st.windows_by_id none]
    cases specLastFocused arr <;> rfl

/-! ### Claim C2 — `WindowClosed` -/

/-- A `WindowsChanged` batch with two entries both marked focused. -/
def cexBatch2 : List Json :=
  [Json.obj [("id", Json.num "1"), ("title", Json.str "a"),
             ("is_focused", Json.bool true)],
   Json.obj [("id", Json.num "2"), ("title", Json.str "b"),
             ("is_focused", Json.bool true)]]

/-- C2 counterexample: the batch contains a *focused* window with id 1, yet
after `WindowsChanged` (where the later focused entry 2 wins the pointer)
followed by `WindowClosed{id:1}`, the Focus Pointer is `some 2`, not none as
the claim's "for all sequences" part demands. -/
theorem C2_focus_survives_close_of_focused_batch_entry :
    (specLastWin cexBatch2 1).map (fun w => (w.id, w.is_focused)) =
      some (1, true) ∧
    (handle_json (handle_json BusState.initial (mkWindowsChanged cexBatch2)).1
        (mkWindowClosed "1")).1.focused_window_id = some 2 :=
  ⟨rfl, rfl⟩

/-- C2 (amended): `WindowClosed{id}` removes exactly the window with that id,
clears the Focus Pointer precisely when it pointed at that id, and signals
once; and after any `WindowsChanged` batch whose *last* focused entry has the
closed id, the Focus Pointer is none afterwards. -/
theorem C2_windowClosed_removes_and_clears (st : BusState) (raw : String)
    (id : Int) (h : parseIntToken raw = some id) :
    mapGet (handle_json st (mkWindowClosed raw)).1.windows_by_id id = none ∧
    (∀ id', id' ≠ id →
      mapGet (handle_json st (mkWindowClosed raw)).1.windows_by_id id' =
        mapGet st.windows_by_id id') ∧
    (handle_json st (mkWindowClosed raw)).1.focused_window_id =
      (if st.focused_window_id = some id then none
       else st.focused_window_id) ∧
    (handle_json st (mkWindowClosed raw)).2 = 1 ∧
    (∀ arr : List Json, specLastFocused arr = some id →
      (handle_json (handle_json st (mkWindowsChanged arr)).1
          (mkWindowClosed raw)).1.focused_window_id = none) := by
  have hdec : (jGet (Json.obj [("id", Json.num raw)]) "id").bind Json.asI64 =
      some id := by
    simp [jGet, Json.asObject, oGet, Json.asI64, h]
  have happ : ∀ s : BusState, handle_json s (mkWindowClosed raw) =
      ({ s with
          windows_by_id := mapRemove s.windows_by_id id
          focused_window_id :=
            if s.focused_window_id = some id then none
            else s.focused_window_id }, 1) := by
    intro s
    rw [handle_mkWindowClosed]
    simp only [applyWindowClosed, hdec]
  refine ⟨?_, ?_, ?_, ?_, ?_⟩
  · rw [happ]; simp [mapGet_remove]
  · intro id' hne
    rw [happ]
    simp [mapGet_remove, hne]
  · rw [happ]
  · rw [happ]
  · intro arr harr
    have hfoc : (handle_json st (mkWindowsChanged arr)).1.focused_window_id =
        some id := by
      show (match (arr.foldl windowStep (st.windows_by_id, none)).2 with
            | some fid => some fid
            | none => st.focused_window_id) = some id
      rw [windowFold_foc arr st.windows_by_id none, harr]
    rw [happ]
    simp [hfoc]

/-- C2 witness: the amended theorem applied at id 1 with a batch whose
(only, hence last) focused entry is window 1. -/
theorem C2_witness :
    parseIntToken "1" = some 1 ∧
    (handle_json (handle_json BusState.initial (mkWindowsChanged
        [Json.obj [("id", Json.num "1"), ("title", Json.str "t"),
                   ("is_focused", Json.bool true)]])).1
      (mkWindowClosed "1")).1.focused_window_id = none :=
  ⟨rfl,
   (C2_windowClosed_removes_and_clears BusState.initial "1" 1 rfl).2.2.2.2
     [Json.obj [("id", Json.num "1"), ("title", Json.str "t"),
                ("is_focused", Json.bool true)]] rfl⟩

/-! ### Claim C4 — `WindowLayoutsChanged` -/

/-- A complete layout object (all four required sub-fields present). -/
def cexLayoutFields : List (String × Json) :=
  [("pos_in_scrolling_layout", Json.arr [Json.num "1", Json.num "2"]),
   ("tile_size", Json.arr [Json.num "3", Json.num "4"]),
   ("window_size", Json.arr [Json.num "5", Json.num "6"]),
   ("window_offset_in_tile", Json.arr [Json.num "7", Json.num "8"])]

/-- The decoded form of `cexLayoutFields`. -/
def cexLayout : WindowLayout :=
  { pos_in_scrolling_layout := ("1", "2")
    tile_size := ("3", "4")
    window_size := ("5", "6")
    window_offset_in_tile := ("7", "8") }

/-- A cached window with id 1 and no layout yet. -/
def cexWin1 : WindowInfo :=
  { id := 1, title := "w", app_id := "", workspace_id := 0
    is_focused := false, is_floating := false, layout := none }

/-- A state holding only window 1. -/
def cexState4 : BusState :=
  { BusState.initial with windows_by_id := [(1, cexWin1)] }

/-- A layout batch with an incomplete entry for id 1 (empty layout object,
so all four required sub-fields are missing) followed by a complete one. -/
def cexChanges4 : List Json :=
  [Json.arr [Json.num "1", Json.obj []],
   Json.arr [Json.num "1", Json.obj cexLayoutFields]]

/-- C4 counterexample: the batch `cexChanges4` contains an entry for id 1
whose layout object is missing all four required sub-fields, yet window 1's
layout is NOT the same after the batch as before it (a later complete entry
for the same id wrote it), contradicting the claim's per-entry "for every
entry ... unchanged after the batch" quantification. -/
theorem C4_incomplete_entry_layout_still_changes :
    entryWritesId (Json.arr [Json.num "1", Json.obj []]) 1 = false ∧
    mapGet cexState4.windows_by_id 1 = some cexWin1 ∧
    cexWin1.layout = none ∧
    mapGet (handle_json cexState4
        (mkWindowLayoutsChanged cexChanges4)).1.windows_by_id 1 =
      some { cexWin1 with layout := some cexLayout } :=
  ⟨rfl, rfl, rfl, rfl⟩

/-- C4 (amended): for every id such that *no* entry of the batch writes it
(every entry either targets a different id, is ill-formed, or has a layout
object missing one of the four required sub-fields), the cached record for
that id — its layout in particular — is exactly the same after the batch;
ids not in the window map stay absent (entries for unknown ids are skipped,
never inserted); the hub is signalled exactly once for the line. -/
theorem C4_incomplete_layout_entries_have_no_effect (st : BusState)
    (changes : List Json) (id : Int) :
    ((∀ e ∈ changes, entryWritesId e id = false) →
      mapGet (handle_json st
          (mkWindowLayoutsChanged changes)).1.windows_by_id id =
        mapGet st.windows_by_id id) ∧
    (mapGet st.windows_by_id id = none →
      mapGet (handle_json st
          (mkWindowLayoutsChanged changes)).1.windows_by_id id = none) ∧
    (handle_json st (mkWindowLayoutsChanged changes)).2 = 1 := by
  have happ : handle_json st (mkWindowLayoutsChanged changes) =
      ({ st with
          windows_by_id := changes.foldl layoutStep st.windows_by_id }, 1) := rfl
  refine ⟨?_, ?_, ?_⟩
  · intro h
    rw [happ]
    exact layoutFold_no_write changes st.windows_by_id id h
  · intro h
    rw [happ]
    exact layoutFold_absent changes st.windows_by_id id h
  · rw [happ]

/-- C4 witness: the amended theorem applied to a batch holding only the
incomplete entry for the known id 1, and to the unknown id 9. -/
theorem C4_witness :
    mapGet (handle_json cexState4 (mkWindowLayoutsChanged
        [Json.arr [Json.num "1", Json.obj []]])).1.windows_by_id 1 =
      mapGet cexState4.windows_by_id 1 ∧
    mapGet (handle_json cexState4
        (mkWindowLayoutsChanged cexChanges4)).1.windows_by_id 9 = none :=
  ⟨(C4_incomplete_layout_entries_have_no_effect cexState4
      [Json.arr [Json.num "1", Json.obj []]] 1).1 (by decide),
   (C4_incomplete_layout_entries_have_no_effect cexState4 cexChanges4 9).2.1 rfl⟩

/-! ### Claim C5 — `WorkspacesChanged` -/

/-- C5: a `WorkspacesChanged` payload replaces the workspace list by the
decoded entries sorted ascending by `idx` (a permutation of the decoded
list, pairwise-sorted), regardless of arrival order; and when some entry is
marked focused, the Focus Pointer is overwritten with that (last focused)
entry's nullable `active_window_id`, else left unchanged. -/
theorem C5_workspacesChanged_sorts_and_seeds_focus (st : BusState)
    (wv : List Json) :
    List.Sorted (fun a b : WorkspaceInfo => a.idx ≤ b.idx)
      (handle_json st (mkWorkspacesChanged wv)).1.workspaces ∧
    (handle_json st (mkWorkspacesChanged wv)).1.workspaces.Perm
      (specDecodedWorkspaces wv) ∧
    (handle_json st (mkWorkspacesChanged wv)).1.focused_window_id =
      (match specLastFocusedActive wv with
       | some aw => aw
       | none => st.focused_window_id) := by
  have hstate : handle_json st (mkWorkspacesChanged wv) =
      (match (wv.foldl workspaceStep ([], none)).2 with
       | some awOpt =>
         ({ st with
             workspaces := sortByIdx (wv.foldl workspaceStep ([], none)).1
             focused_window_id := awOpt }, 1)
       | none =>
         ({ st with
             workspaces :=
               sortByIdx (wv.foldl workspaceStep ([], none)).1 }, 0)) := rfl
  have hr1 : (wv.foldl workspaceStep ([], none)).1 = specDecodedWorkspaces wv := by
    simpa using wsFold_list wv ([], none)
  have hr2 : (wv.foldl workspaceStep ([], none)).2 =
      (match specLastFocusedActive wv with
       | some x => some x
       | none => none) := wsFold_foc wv ([], none)
  have hsorted : ∀ X : List WorkspaceInfo,
      List.Sorted (fun a b : WorkspaceInfo => a.idx ≤ b.idx) (sortByIdx X) := by
    intro X
    haveI : IsTotal WorkspaceInfo (fun a b => a.idx ≤ b.idx) :=
      ⟨fun a b => le_total a.idx b.idx⟩
    haveI : IsTrans WorkspaceInfo (fun a b => a.idx ≤ b.idx) :=
      ⟨fun a b c h1 h2 => le_trans h1 h2⟩
    exact List.sorted_insertionSort _ X
  have hperm : ∀ X : List WorkspaceInfo, (sortByIdx X).Perm X := fun X =>
    List.perm_insertionSort _ X
  rw [hstate]
  cases hx : specLastFocusedActive wv with
  | some aw =>
    rw [hx] at hr2
    rw [hr2]
    exact ⟨hsorted _, hr1 ▸ hperm _, rfl⟩
  | none =>
    rw [hx] at hr2
    rw [hr2]
    exact ⟨hsorted _, hr1 ▸ hperm _, rfl⟩

/-! ### Claim C6 — defaults for missing optional window sub-fields -/

/-- C6: a window object carrying only the required `id` and `title` is still
decoded and applied by both window-carrying events; the optional sub-fields
take their documented defaults — `app_id` becomes the empty string,
`workspace_id` the number 0, the booleans false (and `layout` absent) —
rather than the window or line being rejected. -/
theorem C6_missing_optional_fields_use_defaults (st : BusState)
    (raw title : String) (id : Int) (h : parseIntToken raw = some id) :
    decodeWindow [("id", Json.num raw), ("title", Json.str title)] =
      some { id := id, title := title, app_id := "", workspace_id := 0
             is_focused := false, is_floating := false, layout := none } ∧
    handle_json st (mkWindowOpenedOrChanged
        [("id", Json.num raw), ("title", Json.str title)]) =
      ({ st with
          windows_by_id := mapInsert st.windows_by_id id
            { id := id, title := title, app_id := "", workspace_id := 0
              is_focused := false, is_floating := false, layout := none } },
       1) ∧
    handle_json st (mkWindowsChanged
        [Json.obj [("id", Json.num raw), ("title", Json.str title)]]) =
      ({ st with
          windows_by_id := mapInsert st.windows_by_id id
            { id := id, title := title, app_id := "", workspace_id := 0
              is_focused := false, is_floating := false, layout := none } },
       1) := by
  have hdec : decodeWindow [("id", Json.num raw), ("title", Json.str title)] =
      some { id := id, title := title, app_id := "", workspace_id := 0
             is_focused := false, is_floating := false, layout := none } := by
    simp [decodeWindow, oGet, Json.asI64, Json.asStr, h]
  refine ⟨hdec, ?_, ?_⟩
  · rw [handle_mkWindowOpenedOrChanged]
    simp only [ingest_window_object, hdec]
  · rw [handle_mkWindowsChanged]
    simp only [ingest_windows_array, List.foldl_cons, List.foldl_nil,
      windowStep, Json.asObject, Option.some_bind, hdec]
    rfl

/-- C6 witness: the theorem applied at id 7 and title "hi". -/
theorem C6_witness :
    decodeWindow [("id", Json.num "7"), ("title", Json.str "hi")] =
      some { id := 7, title := "hi", app_id := "", workspace_id := 0
             is_focused := false, is_floating := false, layout := none } :=
  (C6_missing_optional_fields_use_defaults BusState.initial "7" "hi" 7 rfl).1

/-! ### Claim C9 — idempotence of `WorkspaceActivated` -/

/-- C9: applying the same `WorkspaceActivated{id=X}` event twice in a row
yields exactly the same state (and signal count) as applying it once, for
every starting state and every raw id payload. -/
theorem C9_workspaceActivated_idempotent (st : BusState) (raw : String) :
    handle_json (handle_json st (mkWorkspaceActivated raw)).1
        (mkWorkspaceActivated raw) =
      handle_json st (mkWorkspaceActivated raw) := by
  have hscrut : (jGet (Json.obj [("id", Json.num raw), ("focused", Json.bool true)])
      "id").bind Json.asI64 = parseIntToken raw := rfl
  cases h : parseIntToken raw with
  | none =>
    simp only [handle_mkWorkspaceActivated, applyWorkspaceActivated, hscrut, h]
  | some wsId =>
    simp only [handle_mkWorkspaceActivated, applyWorkspaceActivated, hscrut, h,
      List.map_map]
    rfl

/-! ### Claim C8 — malformed lines are inert -/

/-- C8: a line that is not parsable JSON leaves the whole bus state exactly
unchanged (and emits no signal), and sandwiching such a line between any two
lines does not affect the outcome of the surrounding lines. -/
theorem C8_malformed_line_is_inert (st : BusState) (line : String)
    (h : parseJson line = none) :
    handle_json_line st line = (st, 0) ∧
    (∀ l1 l2 : String,
      applyLine (applyLine (applyLine st l1) line) l2 =
        applyLine (applyLine st l1) l2) := by
  have hmain : ∀ s : BusState, handle_json_line s line = (s, 0) := fun s => by
    rw [handle_json_line, h]
  refine ⟨hmain st, fun l1 l2 => ?_⟩
  have hmid : applyLine (applyLine st l1) line = applyLine st l1 := by
    rw [applyLine, hmain]
  rw [hmid]

/-- C8 witness: the theorem applied to the literal line `not json` between
an overview toggle and a window-closed event. -/
theorem C8_witness :
    parseJson "not json" = none ∧
    handle_json_line BusState.initial "not json" = (BusState.initial, 0) ∧
    applyLine (applyLine (applyLine BusState.initial
          "\x7b\"OverviewOpenedOrClosed\":\x7b\"is_open\":true\x7d\x7d")
        "not json")
      "\x7b\"WindowClosed\":\x7b\"id\":1\x7d\x7d" =
    applyLine (applyLine BusState.initial
        "\x7b\"OverviewOpenedOrClosed\":\x7b\"is_open\":true\x7d\x7d")
      "\x7b\"WindowClosed\":\x7b\"id\":1\x7d\x7d" :=
  ⟨rfl,
   (C8_malformed_line_is_inert BusState.initial "not json" rfl).1,
   (C8_malformed_line_is_inert BusState.initial "not json" rfl).2
     "\x7b\"OverviewOpenedOrClosed\":\x7b\"is_open\":true\x7d\x7d"
     "\x7b\"WindowClosed\":\x7b\"id\":1\x7d\x7d"⟩

/-! ### Claim C3 — notification signalling -/

/-- A state holding one unfocused workspace. -/
def cexState3 : BusState :=
  { BusState.initial with
      workspaces := [{ id := 1, idx := 1, name := none, is_focused := false }] }

/-- C3 counterexample: `WorkspaceActivated{id:1}` changes externally
observable state (workspace 1's focus flag flips to true) yet signals the
hub zero times, contradicting "exactly once, never zero". -/
theorem C3_workspaceActivated_mutates_without_signal :
    (handle_json cexState3 (mkWorkspaceActivated "1")).2 = 0 ∧
    (handle_json cexState3 (mkWorkspaceActivated "1")).1 ≠ cexState3 := by
  exact ⟨rfl, by decide⟩

/-- C3 (amended): no event ever signals more than once per line (in
particular never once per sub-item of a batch); the window-cache events
(`WindowsChanged`, `WindowLayoutsChanged`, `WindowFocusChanged`, and —
when their payload decodes — `WindowClosed` and `WindowOpenedOrChanged`)
signal exactly once; `WorkspacesChanged` signals once exactly when some
entry is marked focused; but `WorkspaceActivated`,
`KeyboardLayoutsChanged` and `OverviewOpenedOrClosed` signal zero times
even though they mutate observable state. -/
theorem ingest_window_object_snd_le (s : BusState)
    (o : List (String × Json)) : (ingest_window_object s o).2 ≤ 1 := by
  unfold ingest_window_object
  split
  · exact Nat.le_refl 1
  · exact Nat.zero_le 1

theorem applyWindowClosed_snd_le (s : BusState) (v : Json) :
    (applyWindowClosed s v).2 ≤ 1 := by
  unfold applyWindowClosed
  split
  · exact Nat.le_refl 1
  · exact Nat.zero_le 1

theorem applyWindowLayoutsChanged_snd_le (s : BusState) (v : Json) :
    (applyWindowLayoutsChanged s v).2 ≤ 1 := by
  unfold applyWindowLayoutsChanged
  split
  · exact Nat.le_refl 1
  · exact Nat.le_refl 1

theorem applyWorkspaceActivated_snd_le (s : BusState) (v : Json) :
    (applyWorkspaceActivated s v).2 ≤ 1 := by
  unfold applyWorkspaceActivated
  split
  · exact Nat.zero_le 1
  · exact Nat.zero_le 1

theorem applyWorkspacesChanged_snd_le (s : BusState) (v : Json) :
    (applyWorkspacesChanged s v).2 ≤ 1 := by
  unfold applyWorkspacesChanged
  split
  · dsimp only
    split
    · exact Nat.le_refl 1
    · exact Nat.zero_le 1
  · exact Nat.zero_le 1

theorem applyKeyboardLayoutsChanged_snd_le (s : BusState) (v : Json) :
    (applyKeyboardLayoutsChanged s v).2 ≤ 1 := by
  unfold applyKeyboardLayoutsChanged
  split
  · exact Nat.zero_le 1
  · exact Nat.zero_le 1

theorem applyOverview_snd_le (s : BusState) (v : Json) :
    (applyOverview s v).2 ≤ 1 := by
  unfold applyOverview
  split
  · exact Nat.zero_le 1
  · exact Nat.zero_le 1

set_option maxHeartbeats 1600000 in
/-- Every `handle_json` dispatch signals the hub at most once per line. -/
theorem handle_json_signals_at_most_once (st : BusState) (j : Json) :
    (handle_json st j).2 ≤ 1 := by
  cases hobj : j.asObject with
  | none => simp [handle_json, hobj]
  | some o =>
    simp only [handle_json, hobj]
    split_ifs
    · split
      · exact Nat.le_refl 1
      · exact Nat.zero_le 1
    · split
      · exact ingest_window_object_snd_le st _
      · exact Nat.zero_le 1
    · split
      · exact applyWindowClosed_snd_le st _
      · exact Nat.zero_le 1
    · split
      · exact applyWindowLayoutsChanged_snd_le st _
      · exact Nat.zero_le 1
    · exact Nat.le_refl 1
    · exact Nat.le_refl 1
    · split
      · exact applyWorkspaceActivated_snd_le st _
      · exact Nat.zero_le 1
    · split
      · exact applyWorkspacesChanged_snd_le st _
      · exact Nat.zero_le 1
    · split
      · exact applyKeyboardLayoutsChanged_snd_le st _
      · exact Nat.zero_le 1
    · split
      · exact applyOverview_snd_le st _
      · exact Nat.zero_le 1
    · exact Nat.zero_le 1

/-- Exact signal count of `WindowClosed` by whether the id decodes. -/
theorem windowClosed_signal_count (st : BusState) (raw : String) :
    (handle_json st (mkWindowClosed raw)).2 =
      if (parseIntToken raw).isSome then 1 else 0 := by
  have hscrut : (jGet (Json.obj [("id", Json.num raw)]) "id").bind
      Json.asI64 = parseIntToken raw := rfl
  rw [handle_mkWindowClosed, applyWindowClosed, hscrut]
  cases h : parseIntToken raw <;> simp

/-- Exact signal count of `WindowOpenedOrChanged` by whether the window
decodes. -/
theorem windowOpened_signal_count (st : BusState)
    (o : List (String × Json)) :
    (handle_json st (mkWindowOpenedOrChanged o)).2 =
      if (decodeWindow o).isSome then 1 else 0 := by
  rw [handle_mkWindowOpenedOrChanged, ingest_window_object]
  cases h : decodeWindow o <;> simp

/-- Exact signal count of `WorkspacesChanged` by whether some entry is
marked focused. -/
theorem workspacesChanged_signal_count (st : BusState) (wv : List Json) :
    (handle_json st (mkWorkspacesChanged wv)).2 =
      if (specLastFocusedActive wv).isSome then 1 else 0 := by
  have hfold : (wv.foldl workspaceStep ([], none)).2 =
      (match specLastFocusedActive wv with
       | some x => some x
       | none => (none : Option (Option Int))) := wsFold_foc wv ([], none)
  have hred : handle_json st (mkWorkspacesChanged wv) =
      (match (wv.foldl workspaceStep ([], none)).2 with
       | some awOpt =>
         ({ st with
             workspaces := sortByIdx (wv.foldl workspaceStep ([], none)).1
             focused_window_id := awOpt }, 1)
       | none =>
         ({ st with
             workspaces :=
               sortByIdx (wv.foldl workspaceStep ([], none)).1 }, 0)) := rfl
  rw [hred, hfold]
  cases hx : specLastFocusedActive wv <;> simp

/-- `WorkspaceActivated` never signals, whether or not its id decodes. -/
theorem workspaceActivated_signal_count (st : BusState) (raw : String) :
    (handle_json st (mkWorkspaceActivated raw)).2 = 0 := by
  have hscrut : (jGet (Json.obj [("id", Json.num raw),
      ("focused", Json.bool true)]) "id").bind Json.asI64 =
      parseIntToken raw := rfl
  rw [handle_mkWorkspaceActivated, applyWorkspaceActivated, hscrut]
  cases h : parseIntToken raw <;> simp

/-- C3 (amended): no event ever signals more than once per line (in
particular never once per sub-item of a batch); the window-cache events
(`WindowsChanged`, `WindowLayoutsChanged`, `WindowFocusChanged`,
`WorkspaceActiveWindowChanged`, and — when their payload decodes —
`WindowClosed` and `WindowOpenedOrChanged`) signal exactly once;
`WorkspacesChanged` signals once exactly when some entry is marked
focused; but `WorkspaceActivated`, `KeyboardLayoutsChanged` and
`OverviewOpenedOrClosed` signal zero times even though they mutate
observable state. -/
theorem C3_signal_counts (st : BusState) :
    (∀ j : Json, (handle_json st j).2 ≤ 1) ∧
    (∀ ws : List Json, (handle_json st (mkWindowsChanged ws)).2 = 1) ∧
    (∀ changes : List Json,
      (handle_json st (mkWindowLayoutsChanged changes)).2 = 1) ∧
    (∀ v : Json, (handle_json st (mkWindowFocusChanged v)).2 = 1) ∧
    (∀ (rawWs : String) (v : Json),
      (handle_json st (mkWorkspaceActiveWindowChanged rawWs v)).2 = 1) ∧
    (∀ raw : String, (handle_json st (mkWindowClosed raw)).2 =
      if (parseIntToken raw).isSome then 1 else 0) ∧
    (∀ o : List (String × Json),
      (handle_json st (mkWindowOpenedOrChanged o)).2 =
        if (decodeWindow o).isSome then 1 else 0) ∧
    (∀ wv : List Json, (handle_json st (mkWorkspacesChanged wv)).2 =
      if (specLastFocusedActive wv).isSome then 1 else 0) ∧
    (∀ raw : String, (handle_json st (mkWorkspaceActivated raw)).2 = 0) ∧
    (∀ kb : List (String × Json),
      (handle_json st (mkKeyboardLayoutsChanged kb)).2 = 0) ∧
    (∀ b : Bool, (handle_json st (mkOverview b)).2 = 0) :=
  ⟨handle_json_signals_at_most_once st,
   fun _ => rfl,
   fun _ => rfl,
   fun _ => rfl,
   fun _ _ => rfl,
   windowClosed_signal_count st,
   windowOpened_signal_count st,
   workspacesChanged_signal_count st,
   workspaceActivated_signal_count st,
   fun _ => rfl,
   fun _ => rfl⟩

/-! ### Claim C7 — directional workspace cycling -/

/-- C7: with the first focused workspace at position `i` of the ordered
list, forward cycling yields the entry at `i+1` (none past the end without
wrap, the first entry with wrap) and backward cycling the entry at `i-1`
(none before the start without wrap, the last entry with wrap) — for both
the id- and the idx-returning accessor. -/
theorem C7_directional_cycling (st : BusState) (i : Nat)
    (hlt : i < st.workspaces.length)
    (hfind : st.workspaces.findIdx? (fun w => w.is_focused) = some i) :
    next_prev_workspace_idx st true false =
      (st.workspaces.get? (i + 1)).map (·.idx) ∧
    next_prev_workspace_idx st true true =
      (match st.workspaces.get? (i + 1) with
       | some w => some w.idx
       | none => (st.workspaces.get? 0).map (·.idx)) ∧
    next_prev_workspace_idx st false false =
      (if i = 0 then none else (st.workspaces.get? (i - 1)).map (·.idx)) ∧
    next_prev_workspace_idx st false true =
      (if i = 0 then
        (st.workspaces.get? (st.workspaces.length - 1)).map (·.idx)
       else (st.workspaces.get? (i - 1)).map (·.idx)) ∧
    next_prev_workspace_id st true false =
      (st.workspaces.get? (i + 1)).map (·.id) ∧
    next_prev_workspace_id st true true =
      (match st.workspaces.get? (i + 1) with
       | some w => some w.id
       | none => (st.workspaces.get? 0).map (·.id)) ∧
    next_prev_workspace_id st false false =
      (if i = 0 then none else (st.workspaces.get? (i - 1)).map (·.id)) ∧
    next_prev_workspace_id st false true =
      (if i = 0 then
        (st.workspaces.get? (st.workspaces.length - 1)).map (·.id)
       else (st.workspaces.get? (i - 1)).map (·.id)) := by
  have hcur : curFocusedPos st.workspaces = i := by
    rw [curFocusedPos, hfind]
    rfl
  have hemp : st.workspaces.isEmpty = false := by
    cases hL : st.workspaces with
    | nil => rw [hL] at hlt; simp at hlt
    | cons a tl => rfl
  refine ⟨?_, ?_, ?_, ?_, ?_, ?_, ?_, ?_⟩
  · by_cases hb : i + 1 < st.workspaces.length
    · simp [next_prev_workspace_idx, hemp, hcur, hb]
    · have hw : st.workspaces[i + 1]? = none :=
        List.getElem?_eq_none (le_of_not_lt hb)
      simp [next_prev_workspace_idx, hemp, hcur, hb, hw]
  · by_cases hb : i + 1 < st.workspaces.length
    · have hw := List.get?_eq_get (l := st.workspaces) hb
      simp [next_prev_workspace_idx, hemp, hcur, hb, hw]
    · have hw : st.workspaces[i + 1]? = none :=
        List.getElem?_eq_none (le_of_not_lt hb)
      simp [next_prev_workspace_idx, hemp, hcur, hb, hw]
  · by_cases h0 : i = 0
    · simp [next_prev_workspace_idx, hemp, hcur, h0]
    · have hpos : 0 < i := Nat.pos_of_ne_zero h0
      simp [next_prev_workspace_idx, hemp, hcur, h0, hpos]
  · by_cases h0 : i = 0
    · simp [next_prev_workspace_idx, hemp, hcur, h0]
    · have hpos : 0 < i := Nat.pos_of_ne_zero h0
      simp [next_prev_workspace_idx, hemp, hcur, h0, hpos]
  · by_cases hb : i + 1 < st.workspaces.length
    · simp [next_prev_workspace_id, hemp, hcur, hb]
    · have hw : st.workspaces[i + 1]? = none :=
        List.getElem?_eq_none (le_of_not_lt hb)
      simp [next_prev_workspace_id, hemp, hcur, hb, hw]
  · by_cases hb : i + 1 < st.workspaces.length
    · have hw := List.get?_eq_get (l := st.workspaces) hb
      simp [next_prev_workspace_id, hemp, hcur, hb, hw]
    · have hw : st.workspaces[i + 1]? = none :=
        List.getElem?_eq_none (le_of_not_lt hb)
      simp [next_prev_workspace_id, hemp, hcur, hb, hw]
  · by_cases h0 : i = 0
    · simp [next_prev_workspace_id, hemp, hcur, h0]
    · have hpos : 0 < i := Nat.pos_of_ne_zero h0
      simp [next_prev_workspace_id, hemp, hcur, h0, hpos]
  · by_cases h0 : i = 0
    · simp [next_prev_workspace_id, hemp, hcur, h0]
    · have hpos : 0 < i := Nat.pos_of_ne_zero h0
      simp [next_prev_workspace_id, hemp, hcur, h0, hpos]

/-- Workspaces with indices 1, 2, 3 and the middle one focused. -/
def ws123focus2 : BusState :=
  { BusState.initial with
      workspaces :=
        [{ id := 1, idx := 1, name := none, is_focused := false },
         { id := 2, idx := 2, name := none, is_focused := true },
         { id := 3, idx := 3, name := none, is_focused := false }] }

/-- Workspaces with indices 1, 2, 3 and the last one focused. -/
def ws123focus3 : BusState :=
  { BusState.initial with
      workspaces :=
        [{ id := 1, idx := 1, name := none, is_focused := false },
         { id := 2, idx := 2, name := none, is_focused := false },
         { id := 3, idx := 3, name := none, is_focused := true }] }

/-- C7 witness: the claim's concrete cases — indices `[1,2,3]`, focus on 2:
forward no-wrap gives 3; from 3 forward no-wrap gives none, with wrap 1. -/
theorem C7_witness :
    next_prev_workspace_idx ws123focus2 true false = some 3 ∧
    next_prev_workspace_idx ws123focus3 true false = none ∧
    next_prev_workspace_idx ws123focus3 true true = some 1 := by
  have h2 := C7_directional_cycling ws123focus2 1 (by decide) (by decide)
  have h3 := C7_directional_cycling ws123focus3 2 (by decide) (by decide)
  refine ⟨?_, ?_, ?_⟩
  · rw [h2.1]; rfl
  · rw [h3.1]; rfl
  · rw [h3.2.1]; rfl

/-! ### Claim C10 — cycling with no focused workspace -/

/-- C10: when no workspace is marked focused, cycling treats position 0 as
current: forward yields the entry at position 1 (for either wrap setting;
none when the list has a single entry and wrap is off), backward without
wrap yields none, and backward with wrap yields the last entry. -/
theorem C10_cycling_defaults_to_first_position (st : BusState)
    (hfind : st.workspaces.findIdx? (fun w => w.is_focused) = none)
    (hne : st.workspaces ≠ []) :
    (∀ wrap : Bool,
      next_prev_workspace_idx st true wrap =
        (match st.workspaces.get? 1 with
         | some w => some w.idx
         | none =>
           if wrap then (st.workspaces.get? 0).map (·.idx) else none) ∧
      next_prev_workspace_id st true wrap =
        (match st.workspaces.get? 1 with
         | some w => some w.id
         | none =>
           if wrap then (st.workspaces.get? 0).map (·.id) else none)) ∧
    next_prev_workspace_idx st false false = none ∧
    next_prev_workspace_id st false false = none ∧
    next_prev_workspace_idx st false true =
      (st.workspaces.get? (st.workspaces.length - 1)).map (·.idx) ∧
    next_prev_workspace_id st false true =
      (st.workspaces.get? (st.workspaces.length - 1)).map (·.id) := by
  have hcur : curFocusedPos st.workspaces = 0 := by
    rw [curFocusedPos, hfind]
    rfl
  have hemp : st.workspaces.isEmpty = false := by
    cases hL : st.workspaces with
    | nil => exact absurd hL hne
    | cons a tl => rfl
  refine ⟨?_, ?_, ?_, ?_, ?_⟩
  · intro wrap
    by_cases hb : 0 + 1 < st.workspaces.length
    · have hw := List.get?_eq_get (l := st.workspaces) hb
      constructor <;>
        simp [next_prev_workspace_idx, next_prev_workspace_id, hemp, hcur,
          hb, hw]
    · have hw : st.workspaces[1]? = none :=
        List.getElem?_eq_none (le_of_not_lt hb)
      constructor <;>
        simp [next_prev_workspace_idx, next_prev_workspace_id, hemp, hcur,
          hb, hw]
  · simp [next_prev_workspace_idx, hemp, hcur]
  · simp [next_prev_workspace_id, hemp, hcur]
  · simp [next_prev_workspace_idx, hemp, hcur]
  · simp [next_prev_workspace_id, hemp, hcur]

/-- Two workspaces, none focused. -/
def ws12nofocus : BusState :=
  { BusState.initial with
      workspaces :=
        [{ id := 1, idx := 1, name := none, is_focused := false },
         { id := 2, idx := 2, name := none, is_focused := false }] }

/-- C10 witness: applied to two unfocused workspaces — forward gives the
entry at position 1, backward no-wrap gives none, backward wrap the last. -/
theorem C10_witness :
    next_prev_workspace_idx ws12nofocus true false = some 2 ∧
    next_prev_workspace_idx ws12nofocus false false = none ∧
    next_prev_workspace_idx ws12nofocus false true = some 2 := by
  have h := C10_cycling_defaults_to_first_position ws12nofocus
    (by decide) (by decide)
  refine ⟨?_, h.2.1, ?_⟩
  · rw [(h.1 false).1]; rfl
  · rw [h.2.2.2.1]; rfl

end NiriBar
